import Mathlib

/-!
The self-user cache and the login engine.

A shallow embedding of `go/libkb/full_self_cacher.go` and `go/engine/login.go`.

Conventions of the embedding:

* a Go pointer `*User` is an `Option User` (`none` is the nil pointer), a Go `error`
  is an `Option Error` (`none` is the nil error);
* a Go function returning `(*User, error)` returns the pair of both values;
* a method that touches the outside world returns, next to its Go result, the state of
  the receiver after the call and the list of the external events it caused, in order;
* a result of `none` from a method of the cache that may dereference a pointer stands
  for the run-time panic of a nil dereference; a method of the engine records in its
  result whether it returned or panicked.

The random call id of `WithUser` appears only inside its debug lines and is left out.
-/

namespace Libkb

/-- Modelled from the spec: the type `keybase1.UID` is declared outside the embedded
sources. An identifier is an opaque string; the identifier that is not set is the empty
one. -/
structure UID where
  val : String
deriving DecidableEq, Repr

/-- Modelled from the spec: `UID.Exists` is declared outside the embedded sources; an
identifier is set when it is not the empty one. -/
def UID.Exists (u : UID) : Bool := u.val != ""

/-- Modelled from the spec: `UID.Equal` is declared outside the embedded sources;
identity records are compared by identifier. -/
def UID.Equal (u v : UID) : Bool := u == v

/-- Modelled from the spec: the type `NormalizedUsername` is declared outside the
embedded sources; it is a name after normalization. -/
structure NormalizedUsername where
  val : String
deriving DecidableEq, Repr

/-- Modelled from the spec: `NormalizedUsername.Eq` is declared outside the embedded
sources; normalized names are compared for equality. -/
def NormalizedUsername.Eq (n k : NormalizedUsername) : Bool := n == k

/-- Modelled from the spec: the type `User` is declared outside the embedded sources.
An identity record has an identifier, a normalized name and further fields that the
cache never looks at (`rest`). -/
structure User where
  id : UID
  name : NormalizedUsername
  rest : Nat
deriving DecidableEq, Repr

/-- The method `GetUID` on a `*User`; on the nil pointer it panics. -/
def GetUID (u : Option User) : Option UID := u.map User.id

/-- The method `GetNormalizedName` on a `*User`; on the nil pointer it panics. -/
def GetNormalizedName (u : Option User) : Option NormalizedUsername := u.map User.name

/-- The Go errors the embedded code tells apart: `NoKeyError` and every other one. -/
inductive Error where
  | NoKeyError (msg : String)
  | Other (msg : String)
deriving DecidableEq, Repr

/-- The fields of `LoadUserArg` that the embedded code reads or writes. -/
structure LoadUserArg where
  Self : Bool := false
  Name : String := ""
  UID : UID := ⟨""⟩
  PublicKeyOptional : Bool := false
  ForceReload : Bool := false
deriving DecidableEq, Repr

/-- The debug lines written by the cache. -/
inductive LogLine where
  | enter
  | leave
  | cachePopulate
  | otherUser
  | cacheHit
  | invalidating (u : UID)
deriving DecidableEq, Repr

/-- The external events of the cache, as they appear in the source. -/
inductive Event where
  | Debug (line : LogLine)
  | Lock
  | Unlock
  | LoadUser (arg : LoadUserArg)
  | GetMyUID
  | GetUPAKLoader
  | PutUserToCache (u : Option User)
  | Call (u : Option User)
deriving DecidableEq, Repr

/-- What a cache method reads from the global context `m.G()` during one call: the
identifier of the authenticated user and whether a UPAK loader is installed. -/
structure GlobalContext where
  GetMyUID : UID
  GetUPAKLoader : Bool

/-- The package-level functions of `libkb` that the cache calls and that are declared
outside the embedded sources, taken as parameters. -/
structure Package where
  LoadUser : LoadUserArg → Option User × Option Error
  NewNormalizedUsername : String → NormalizedUsername

/-- The cache: the slot `me`. The mutex shows up as the `Lock` and `Unlock` events. -/
structure FullSelfCache where
  me : Option User
deriving DecidableEq, Repr

/-- The result of one cache method: the Go error, the cache afterwards, the events. -/
structure Ret where
  err : Option Error
  m : FullSelfCache
  trace : List Event
deriving DecidableEq, Repr

/-- Go's `a && b` where evaluating `b` may panic: `b` is evaluated only if `a` holds. -/
def andAlso (a : Bool) (b : Option Bool) : Option Bool :=
  if a then b else some false

/-- Go's `a || b` where evaluating `b` may panic: `b` is evaluated only if `a` fails. -/
def orElse (a : Bool) (b : Option Bool) : Option Bool :=
  if a then some true else b

/-- The constructor `NewFullSelfCache`: the slot starts empty. -/
def NewFullSelfCache : FullSelfCache := { me := none }

/-- The method `FullSelfCache.isSelfLoad`. -/
def FullSelfCache.isSelfLoad (p : Package) (m : FullSelfCache) (arg : LoadUserArg) :
    Option Bool :=
  if arg.Self then some true
  else
    match andAlso (arg.Name != "")
        ((GetNormalizedName m.me).map fun n => (p.NewNormalizedUsername arg.Name).Eq n) with
    | none => none
    | some true => some true
    | some false =>
      match andAlso arg.UID.Exists ((GetUID m.me).map fun i => arg.UID.Equal i) with
      | none => none
      | some true => some true
      | some false => some false

/-- The method `FullSelfCache.WithUser`. The deferred function (debug line, unlock) runs
last on every return. -/
def FullSelfCache.WithUser (g : GlobalContext) (p : Package) (m : FullSelfCache)
    (arg : LoadUserArg) (f : Option User → Option Error) : Option Ret :=
  let pre : List Event := [.Debug .enter, .Lock]
  let post : List Event := [.Debug .leave, .Unlock]
  (orElse (m.me == none) ((m.isSelfLoad p arg).map not)).bind fun miss =>
  if miss then
    let r := p.LoadUser arg
    if r.2 != none then
      some { err := r.2, m := m, trace := pre ++ [.LoadUser arg] ++ post }
    else
      let asked : List Event := if arg.Self then [] else [.GetMyUID]
      (orElse arg.Self ((GetUID r.1).map fun uid => uid.Equal g.GetMyUID)).bind fun self =>
      if self then
        some { err := f r.1, m := { me := r.1 },
               trace := pre ++ [.LoadUser arg] ++ asked ++ [.Debug .cachePopulate, .Call r.1]
                 ++ post }
      else
        some { err := f r.1, m := m,
               trace := pre ++ [.LoadUser arg] ++ asked ++ [.Debug .otherUser, .Call r.1]
                 ++ post }
  else
    let put : List Event := if g.GetUPAKLoader then [.PutUserToCache m.me] else []
    some { err := f m.me, m := m,
           trace := pre ++ [.Debug .cacheHit, .GetUPAKLoader] ++ put ++ [.Call m.me] ++ post }

/-- The method `FullSelfCache.WithSelf`. -/
def FullSelfCache.WithSelf (g : GlobalContext) (p : Package) (m : FullSelfCache)
    (f : Option User → Option Error) : Option Ret :=
  m.WithUser g p { PublicKeyOptional := true, Self := true } f

/-- The method `FullSelfCache.HandleUserChanged`. -/
def FullSelfCache.HandleUserChanged (m : FullSelfCache) (u : UID) : Option Ret :=
  (andAlso (m.me != none) ((GetUID m.me).map fun i => i.Equal u)).bind fun hit =>
  if hit then
    some { err := none, m := { me := none },
           trace := [.Lock, .Debug (.invalidating u), .Unlock] }
  else
    some { err := none, m := m, trace := [.Lock, .Unlock] }

/-- The method `FullSelfCache.OnLogout`. -/
def FullSelfCache.OnLogout (_m : FullSelfCache) : Option Ret :=
  some { err := none, m := { me := none }, trace := [.Lock, .Unlock] }

/-- The method `FullSelfCache.OnLogin`. The authenticated identifier is asked for only
when the slot is not empty. -/
def FullSelfCache.OnLogin (g : GlobalContext) (m : FullSelfCache) : Option Ret :=
  let asked : List Event := if m.me != none then [.GetMyUID] else []
  (andAlso (m.me != none) ((GetUID m.me).map fun i => !i.Equal g.GetMyUID)).bind fun stale =>
  if stale then
    some { err := none, m := { me := none }, trace := [.Lock] ++ asked ++ [.Unlock] }
  else
    some { err := none, m := m, trace := [.Lock] ++ asked ++ [.Unlock] }

/-- The arguments with which the loader was invoked, in order. -/
def loads : List Event → List LoadUserArg
  | [] => []
  | .LoadUser a :: t => a :: loads t
  | _ :: t => loads t

/-- The records with which the closure was invoked, in order. -/
def calls : List Event → List (Option User)
  | [] => []
  | .Call u :: t => u :: calls t
  | _ :: t => calls t

/-- The pass-through variant `NullFullSelfCache`: it has no slot and no mutex. -/
structure NullFullSelfCache where
deriving DecidableEq, Repr

/-- The result of one method of the pass-through variant. -/
structure NullRet where
  err : Option Error
  n : NullFullSelfCache
  trace : List Event
deriving DecidableEq, Repr

/-- The method `NullFullSelfCache.WithUser`. -/
def NullFullSelfCache.WithUser (p : Package) (n : NullFullSelfCache) (arg : LoadUserArg)
    (f : Option User → Option Error) : NullRet :=
  let r := p.LoadUser arg
  if r.2 != none then
    { err := r.2, n := n, trace := [.LoadUser arg] }
  else
    { err := f r.1, n := n, trace := [.LoadUser arg, .Call r.1] }

/-- The method `NullFullSelfCache.WithSelf`. -/
def NullFullSelfCache.WithSelf (p : Package) (n : NullFullSelfCache)
    (f : Option User → Option Error) : NullRet :=
  n.WithUser p { PublicKeyOptional := true, Self := true } f

/-- The method `NullFullSelfCache.HandleUserChanged`. -/
def NullFullSelfCache.HandleUserChanged (n : NullFullSelfCache) (_u : UID) : NullRet :=
  { err := none, n := n, trace := [] }

/-- The method `NullFullSelfCache.OnLogout`. -/
def NullFullSelfCache.OnLogout (n : NullFullSelfCache) : NullRet :=
  { err := none, n := n, trace := [] }

/-- The method `NullFullSelfCache.OnLogin`. -/
def NullFullSelfCache.OnLogin (n : NullFullSelfCache) : NullRet :=
  { err := none, n := n, trace := [] }

/-- The constructor `NewNullFullSelfCache`. -/
def NewNullFullSelfCache : NullFullSelfCache := {}

/-- A self lookup in the words of the specification, against the cached record `U`:
`wantsSelf` is true, or `byName` is non-empty and normalizes to the normalized name of
`U`, or `byID` is set and equals the identifier of `U`. To be compared with
`FullSelfCache.isSelfLoad`. -/
def selfLookup (p : Package) (U : User) (arg : LoadUserArg) : Bool :=
  arg.Self || (arg.Name != "" && p.NewNormalizedUsername arg.Name == U.name)
    || (arg.UID.Exists && arg.UID == U.id)

/-- One call on the cache. -/
inductive Op where
  | WithUser (arg : LoadUserArg) (f : Option User → Option Error)
  | WithSelf (f : Option User → Option Error)
  | HandleUserChanged (u : UID)
  | OnLogout
  | OnLogin

/-- One call on the cache together with the outside world at the time of the call: the
global context (who is authenticated) and the behaviour of the loader. -/
structure Step where
  g : GlobalContext
  p : Package
  op : Op

/-- The call of a step, made on the cache `m`. -/
def Step.apply (s : Step) (m : FullSelfCache) : Option Ret :=
  match s.op with
  | .WithUser arg f => m.WithUser s.g s.p arg f
  | .WithSelf f => m.WithSelf s.g s.p f
  | .HandleUserChanged u => m.HandleUserChanged u
  | .OnLogout => m.OnLogout
  | .OnLogin => m.OnLogin s.g

/-- A loader call of a step that succeeded and was confirmed to be self, in the words
of the specification: the loader returned no error, and the call was made with
`wantsSelf` true or returned a record whose identifier is the one authenticated at the
time of the call. -/
def Step.confirmedSelf (s : Step) (a : LoadUserArg) : Bool :=
  (s.p.LoadUser a).2 == none &&
    (a.Self || GetUID (s.p.LoadUser a).1 == some s.g.GetMyUID)

/-- What the most recent confirmed-self successful loader call among the loader calls
recorded in the trace `t` of a step returned (`none` when the step made no such call). -/
def Step.confirmed (s : Step) (t : List Event) : Option (Option User) :=
  (((loads t).filter s.confirmedSelf).getLast?).map fun a => (s.p.LoadUser a).1

/-- The state of a run of calls: the cache, and what the most recent confirmed-self
successful loader call so far returned (`none` when there was no such call yet). -/
structure RunState where
  m : FullSelfCache
  last : Option (Option User)
deriving DecidableEq, Repr

/-- A sequence of calls made one after the other, each on the cache the previous one
left. A panic of a call ends the run (`none`). -/
def runSteps : List Step → RunState → Option RunState
  | [], st => some st
  | s :: rest, st =>
    match s.apply st.m with
    | none => none
    | some r =>
      runSteps rest
        { m := r.m
          last := match s.confirmed r.trace with
            | some u => some u
            | none => st.last }

/-- A record for the examples: identifier `u1`, normalized name `alice`. -/
def alice : User := { id := ⟨"u1"⟩, name := ⟨"alice"⟩, rest := 0 }

/-- A second record for the examples: identifier `u2`, normalized name `bob`. -/
def bob : User := { id := ⟨"u2"⟩, name := ⟨"bob"⟩, rest := 0 }

/-- A global context for the examples: `u1` is authenticated, a UPAK loader is there. -/
def asAlice : GlobalContext := { GetMyUID := ⟨"u1"⟩, GetUPAKLoader := true }

/-- A package for the examples whose loader always succeeds with `alice`. -/
def loadsAlice : Package :=
  { LoadUser := fun _ => (some alice, none), NewNormalizedUsername := fun s => ⟨s⟩ }

/-- A package for the examples whose loader always succeeds with `bob`. -/
def loadsBob : Package :=
  { LoadUser := fun _ => (some bob, none), NewNormalizedUsername := fun s => ⟨s⟩ }

/-- A package for the examples whose loader always fails. -/
def loadFails : Package :=
  { LoadUser := fun _ => (none, some (.Other "network")),
    NewNormalizedUsername := fun s => ⟨s⟩ }

/-- A closure for the examples that always succeeds. -/
def accept : Option User → Option Error := fun _ => none

/-- A closure for the examples that always fails. -/
def reject : Option User → Option Error := fun _ => some (.Other "closure")

/-- A run for the examples, with `alice` authenticated throughout: `WithSelf` loads
`alice`, then a lookup of `bob` by name loads `bob`. -/
def sampleSteps : List Step :=
  [ { g := asAlice, p := loadsAlice, op := .WithSelf accept },
    { g := asAlice, p := loadsBob, op := .WithUser { Name := "bob" } accept } ]

end Libkb

namespace Engine

open Libkb

/-- The kinds of user interface an engine can require (`libkb.UIKind`). -/
inductive UIKind where
  | LoginUIKind
  | SecretUIKind
  | LogUIKind
deriving DecidableEq, Repr

/-- The run context: the user interfaces it carries, each an interface value that may
be nil (`none`). The embedded code passes `LoginUI` and `SecretUI` on and writes one
debug line to `LogUI`. A `*Context` is an `Option Context`. -/
structure Context where
  LoginUI : Option Nat
  SecretUI : Option Nat
  LogUI : Option Nat
deriving DecidableEq, Repr

/-- How a call of a Go function of the engine ends: it returns its error result, or it
panics on a nil dereference. -/
inductive Outcome where
  | returned (err : Option Error)
  | panicked
deriving DecidableEq, Repr

/-- The argument of `NewLocksmith`. -/
structure LocksmithArg where
  User : Option User
deriving DecidableEq, Repr

/-- Modelled from the spec: the type `Locksmith` is declared outside the embedded
sources. The checkup task is a handle bound to the argument it was created with. -/
structure Locksmith where
  arg : LocksmithArg
deriving DecidableEq, Repr

/-- Modelled from the spec: `NewLocksmith` is declared outside the embedded sources;
the factory returns a handle bound to the given identity. -/
def NewLocksmith (larg : LocksmithArg) : Locksmith := { arg := larg }

/-- The three login entry points of `libkb.LoginState`, declared outside the embedded
sources and taken as parameters. -/
structure LoginState where
  LoginWithPrompt : String → Option Nat → Option Nat → Option Error
  LoginWithStoredSecret : String → Option Error
  LoginWithPassphrase : String → String → Bool → Option Error

/-- The collaborators of the engine that are declared outside the embedded sources,
taken as parameters: the login state, `libkb.LoadMe`, the two methods of the locksmith
and the local device identifier `e.G().Env.GetDeviceID().String()`. -/
structure World where
  LoginState : LoginState
  LoadMe : LoadUserArg → Option User × Option Error
  LoginCheckup : Locksmith → Option Context → Option User → Option Error
  Cancel : Locksmith → Option Error
  GetDeviceID : String

/-- The debug lines written by the engine. -/
inductive LogLine where
  | skippingLocksmith
  | cancelLocksmithNil
deriving DecidableEq, Repr

/-- The external events of the engine, as they appear in the source. `Lock` and
`Unlock` are those of `locksmithMu`. -/
inductive Event where
  | runFn
  | LoadMe (arg : LoadUserArg)
  | Debug (line : LogLine)
  | Lock
  | Unlock
  | NewLocksmith (larg : LocksmithArg)
  | LoginCheckup (l : Locksmith) (u : Option User)
  | SetDeviceProvisioned (deviceID : String)
  | Cancel (l : Locksmith)
deriving DecidableEq, Repr

/-- The engine. The mutex `locksmithMu` shows up as the `Lock` and `Unlock` events. -/
structure LoginEngine where
  requiredUIs : List UIKind
  runFn : LoginState → Option Context → Outcome
  user : Option User
  SkipLocksmith : Bool
  locksmith : Option Locksmith

/-- The result of one engine method: how the call ended, the engine afterwards, the
events. A panic keeps the assignments and the events that came before it. -/
structure Ret where
  res : Outcome
  e : LoginEngine
  trace : List Event

/-- The constructor `NewLoginWithPromptEngine`. Its closure reads `ctx.LoginUI` and
`ctx.SecretUI`, so it panics on a nil context. -/
def NewLoginWithPromptEngine (username : String) : LoginEngine :=
  { requiredUIs := [.LoginUIKind, .SecretUIKind, .LogUIKind]
    runFn := fun loginState ctx =>
      match ctx with
      | none => .panicked
      | some c => .returned (loginState.LoginWithPrompt username c.LoginUI c.SecretUI)
    user := none
    SkipLocksmith := false
    locksmith := none }

/-- The constructor `NewLoginWithPromptEngineSkipLocksmith`. -/
def NewLoginWithPromptEngineSkipLocksmith (username : String) : LoginEngine :=
  let eng := NewLoginWithPromptEngine username
  { eng with SkipLocksmith := true }

/-- The constructor `NewLoginWithStoredSecretEngine`. -/
def NewLoginWithStoredSecretEngine (username : String) : LoginEngine :=
  { requiredUIs := []
    runFn := fun loginState _ctx => .returned (loginState.LoginWithStoredSecret username)
    user := none
    SkipLocksmith := false
    locksmith := none }

/-- The constructor `NewLoginWithPassphraseEngine`. -/
def NewLoginWithPassphraseEngine (username passphrase : String) (storeSecret : Bool) :
    LoginEngine :=
  { requiredUIs := []
    runFn := fun loginState _ctx =>
      .returned (loginState.LoginWithPassphrase username passphrase storeSecret)
    user := none
    SkipLocksmith := false
    locksmith := none }

/-- The method `LoginEngine.Name`. -/
def LoginEngine.Name (_e : LoginEngine) : String := "Login"

/-- The type assertion `err.(libkb.NoKeyError)`: its second result. -/
def isNoKeyError : Error → Bool
  | .NoKeyError _ => true
  | .Other _ => false

/-- The test after `libkb.LoadMe` in `Run`: the load error makes `Run` return when it
is not nil and is not a `NoKeyError`. -/
def loadAborts : Option Error → Bool
  | none => false
  | some err => !isNoKeyError err

/-- The method `LoginEngine.Run`. The record kept in `e.user` is the first result of
`libkb.LoadMe`, whatever the second one is. On the skip path `ctx.LogUI.Debug` panics
when the context is nil or carries no `LogUI`. `LocalSession`, declared outside the
embedded sources, is taken to run the closure it is given, which marks the session. -/
def LoginEngine.Run (w : World) (e : LoginEngine) (ctx : Option Context) : Ret :=
  match e.runFn w.LoginState ctx with
  | .panicked => { res := .panicked, e := e, trace := [.runFn] }
  | .returned (some err) => { res := .returned (some err), e := e, trace := [.runFn] }
  | .returned none =>
    let arg : LoadUserArg := { ForceReload := true }
    let r := w.LoadMe arg
    let e1 := { e with user := r.1 }
    if loadAborts r.2 then
      { res := .returned r.2, e := e1, trace := [.runFn, .LoadMe arg] }
    else if e1.SkipLocksmith then
      match ctx.bind Context.LogUI with
      | none => { res := .panicked, e := e1, trace := [.runFn, .LoadMe arg] }
      | some _ =>
        { res := .returned none, e := e1,
          trace := [.runFn, .LoadMe arg, .Debug .skippingLocksmith] }
    else
      let larg : LocksmithArg := { User := e1.user }
      let l := NewLocksmith larg
      let e2 := { e1 with locksmith := some l }
      let t : List Event :=
        [.runFn, .LoadMe arg, .Lock, .NewLocksmith larg, .Unlock, .LoginCheckup l e2.user]
      let err := w.LoginCheckup l ctx e2.user
      if err != none then
        { res := .returned err, e := e2, trace := t }
      else
        { res := .returned none, e := e2,
          trace := t ++ [.SetDeviceProvisioned w.GetDeviceID] }

/-- The method `LoginEngine.User`. -/
def LoginEngine.User (e : LoginEngine) : Option User := e.user

/-- The method `LoginEngine.Cancel`. -/
def LoginEngine.Cancel (w : World) (e : LoginEngine) : Ret :=
  match e.locksmith with
  | none =>
    { res := .returned none, e := e, trace := [.Lock, .Debug .cancelLocksmithNil, .Unlock] }
  | some l => { res := .returned (w.Cancel l), e := e, trace := [.Lock, .Cancel l, .Unlock] }

/-- The checkups that were run, in order: the handle and the record it was run against. -/
def checkups : List Event → List (Locksmith × Option User)
  | [] => []
  | .LoginCheckup l u :: t => (l, u) :: checkups t
  | _ :: t => checkups t

/-- The handles that the checkup factory created, in order. -/
def created : List Event → List LocksmithArg
  | [] => []
  | .NewLocksmith a :: t => a :: created t
  | _ :: t => created t

/-- The device identifiers with which the session was marked provisioned, in order. -/
def provisioned : List Event → List String
  | [] => []
  | .SetDeviceProvisioned d :: t => d :: provisioned t
  | _ :: t => provisioned t

/-- The handles whose cancel was invoked, in order. -/
def cancels : List Event → List Locksmith
  | [] => []
  | .Cancel l :: t => l :: cancels t
  | _ :: t => cancels t

/-- The criteria with which the own record was loaded, in order. -/
def selfLoads : List Event → List LoadUserArg
  | [] => []
  | .LoadMe a :: t => a :: selfLoads t
  | _ :: t => selfLoads t

/-- A login state for the examples in which every strategy succeeds. -/
def loginSucceeds : LoginState :=
  { LoginWithPrompt := fun _ _ _ => none
    LoginWithStoredSecret := fun _ => none
    LoginWithPassphrase := fun _ _ _ => none }

/-- A world for the examples: login, the load of `alice` and the checkup succeed. -/
def happyWorld : World :=
  { LoginState := loginSucceeds
    LoadMe := fun _ => (some alice, none)
    LoginCheckup := fun _ _ _ => none
    Cancel := fun _ => none
    GetDeviceID := "device-1" }

/-- A world for the examples in which the load fails with a `NoKeyError` and returns
the record of `alice` beside it, and the checkup succeeds. -/
def keylessRecordWorld : World :=
  { happyWorld with LoadMe := fun _ => (some alice, some (.NoKeyError "no key")) }

/-- A login state for the examples in which every strategy fails. -/
def loginFails : LoginState :=
  { LoginWithPrompt := fun _ _ _ => some (.Other "bad passphrase")
    LoginWithStoredSecret := fun _ => some (.Other "bad passphrase")
    LoginWithPassphrase := fun _ _ _ => some (.Other "bad passphrase") }

/-- A world for the examples in which the strategy fails. -/
def lockedOutWorld : World := { happyWorld with LoginState := loginFails }

/-- A world for the examples in which the load fails with an error that is not a
`NoKeyError`. -/
def offlineWorld : World :=
  { happyWorld with LoadMe := fun _ => (none, some (.Other "network")) }

/-- A world for the examples in which the checkup fails. -/
def checkupFailsWorld : World :=
  { happyWorld with LoginCheckup := fun _ _ _ => some (.Other "checkup") }

/-- A run context for the examples that carries all three user interfaces. -/
def someContext : Option Context :=
  some { LoginUI := some 1, SecretUI := some 2, LogUI := some 3 }

end Engine

namespace Libkb

@[simp] theorem loads_append (s t : List Event) : loads (s ++ t) = loads s ++ loads t := by
  induction s with
  | nil => rfl
  | cons e s ih => cases e <;> simp [loads, ih]

@[simp] theorem calls_append (s t : List Event) : calls (s ++ t) = calls s ++ calls t := by
  induction s with
  | nil => rfl
  | cons e s ih => cases e <;> simp [calls, ih]

theorem isSelfLoad_some (p : Package) (U : User) (arg : LoadUserArg) :
    FullSelfCache.isSelfLoad p ⟨some U⟩ arg =
      some (arg.Self || (arg.Name != "" && p.NewNormalizedUsername arg.Name == U.name)
        || (arg.UID.Exists && arg.UID == U.id)) := by
  unfold FullSelfCache.isSelfLoad andAlso GetNormalizedName GetUID NormalizedUsername.Eq
    UID.Equal
  simp only [Option.map_some']
  generalize (p.NewNormalizedUsername arg.Name == U.name) = b1
  generalize (arg.UID == U.id) = b2
  generalize (arg.Name != "") = b3
  generalize arg.UID.Exists = b4
  generalize arg.Self = b5
  cases b1 <;> cases b2 <;> cases b3 <;> cases b4 <;> cases b5 <;> rfl

/-- The condition of `WithUser` that sends a call to the loader: the slot is empty, or
the criteria are not a self lookup against the cached record. -/
theorem withUser_miss_cond (p : Package) (m : FullSelfCache) (arg : LoadUserArg)
    (hmiss : m.me = none ∨ m.isSelfLoad p arg = some false) :
    orElse (m.me == none) ((m.isSelfLoad p arg).map not) = some true := by
  rcases hmiss with h | h
  · simp [orElse, h]
  · cases hm : m.me <;> simp [orElse, h]

/-- Claim C1: on a cache whose slot holds `U`, criteria whose name is non-empty and
normalizes to the normalized name of `U`, or whose identifier is set and equals the
identifier of `U`, make `WithUser` return (no panic) having called the closure exactly
once, with `U`, and the loader never, and the slot still holds `U`. The result is what
the closure returned. This holds whatever `Self` is, so in particular when it is false. -/
theorem withUser_self_hit (g : GlobalContext) (p : Package) (U : User) (arg : LoadUserArg)
    (f : Option User → Option Error)
    (hcrit : (arg.Name ≠ "" ∧ p.NewNormalizedUsername arg.Name = U.name) ∨
      (arg.UID.Exists = true ∧ arg.UID = U.id)) :
    ∃ r, FullSelfCache.WithUser g p ⟨some U⟩ arg f = some r ∧
      calls r.trace = [some U] ∧ loads r.trace = [] ∧ r.m.me = some U ∧
      r.err = f (some U) := by
  have hs : FullSelfCache.isSelfLoad p ⟨some U⟩ arg = some true := by
    rw [isSelfLoad_some]
    rcases hcrit with ⟨h1, h2⟩ | ⟨h1, h2⟩
    · simp [h1, h2]
    · simp [h1, h2.symm]
  unfold FullSelfCache.WithUser
  simp only [hs]
  cases hg : g.GetUPAKLoader <;> simp [orElse, calls, loads]

/-- Witness of C1: the cache holds `alice` and the lookup is by the name `alice`. -/
theorem withUser_self_hit_witness :
    ∃ r, FullSelfCache.WithUser asAlice loadsBob ⟨some alice⟩ { Name := "alice" } accept
        = some r ∧
      calls r.trace = [some alice] ∧ loads r.trace = [] ∧ r.m.me = some alice ∧
      r.err = accept (some alice) :=
  withUser_self_hit asAlice loadsBob alice { Name := "alice" } accept
    (Or.inl ⟨by decide, by decide⟩)

/-- Claim C2: on an empty cache, when the loader succeeds with the record `R` for the
criteria of `WithSelf`, `WithSelf` returns (no panic) having invoked the loader exactly
once, with criteria whose `Self` is true, and the closure exactly once, with `R`; the
slot then holds `R` and the result is what the closure returned. This holds whether or
not the identifier of `R` is the authenticated one, so in particular when it is. -/
theorem withSelf_populates (g : GlobalContext) (p : Package) (R : User)
    (f : Option User → Option Error)
    (hload : p.LoadUser { PublicKeyOptional := true, Self := true } = (some R, none)) :
    ∃ r, FullSelfCache.WithSelf g p NewFullSelfCache f = some r ∧
      (∃ a, loads r.trace = [a] ∧ a.Self = true) ∧ calls r.trace = [some R] ∧
      r.m.me = some R ∧ r.err = f (some R) := by
  simp [FullSelfCache.WithSelf, FullSelfCache.WithUser, NewFullSelfCache, orElse, hload,
    calls, loads]

/-- Witness of C2: the loader answers `alice`, who is authenticated. -/
theorem withSelf_populates_witness :
    alice.id = asAlice.GetMyUID ∧
    ∃ r, FullSelfCache.WithSelf asAlice loadsAlice NewFullSelfCache accept = some r ∧
      (∃ a, loads r.trace = [a] ∧ a.Self = true) ∧ calls r.trace = [some alice] ∧
      r.m.me = some alice ∧ r.err = accept (some alice) :=
  ⟨by decide, withSelf_populates asAlice loadsAlice alice accept rfl⟩

/-- Claim C3: for every cache state and criteria with `Self` false for which the loader
answers a record `R` whose identifier is not the authenticated one, `WithUser` returns
(no panic) and the cache afterwards is the cache before. When the call goes to the
loader (empty slot, or criteria that are not a self lookup), the loader is invoked
exactly once with these criteria and the closure is called with `R`. -/
theorem withUser_other_keeps_slot (g : GlobalContext) (p : Package) (m : FullSelfCache)
    (arg : LoadUserArg) (f : Option User → Option Error) (R : User)
    (hself : arg.Self = false) (hload : p.LoadUser arg = (some R, none))
    (hne : R.id ≠ g.GetMyUID) :
    ∃ r, m.WithUser g p arg f = some r ∧ r.m = m ∧
      (m.me = none ∨ m.isSelfLoad p arg = some false →
        loads r.trace = [arg] ∧ calls r.trace = [some R] ∧ r.err = f (some R)) := by
  obtain ⟨me⟩ := m
  cases me with
  | none =>
    simp [FullSelfCache.WithUser, orElse, hload, hself, GetUID, UID.Equal, hne, calls, loads]
  | some U =>
    simp only [FullSelfCache.WithUser, isSelfLoad_some, hload]
    cases hb : (arg.Self || (arg.Name != "" && p.NewNormalizedUsername arg.Name == U.name)
        || (arg.UID.Exists && arg.UID == U.id)) <;>
      cases hg : g.GetUPAKLoader <;>
      simp [orElse, hself, GetUID, UID.Equal, hne, calls, loads]

/-- Witness of C3: `alice` is authenticated and cached, the lookup is for `bob`. -/
theorem withUser_other_keeps_slot_witness :
    ∃ r, FullSelfCache.WithUser asAlice loadsBob ⟨some alice⟩ { Name := "bob" } accept
        = some r ∧ r.m = ⟨some alice⟩ ∧
      ((⟨some alice⟩ : FullSelfCache).me = none ∨
          FullSelfCache.isSelfLoad loadsBob ⟨some alice⟩ { Name := "bob" } = some false →
        loads r.trace = [{ Name := "bob" }] ∧ calls r.trace = [some bob] ∧
          r.err = accept (some bob)) :=
  withUser_other_keeps_slot asAlice loadsBob ⟨some alice⟩ { Name := "bob" } accept bob
    rfl rfl (by decide)

/-- Claim C4: for every cache state and criteria that send `WithUser` to the loader
(empty slot, or criteria that are not a self lookup), when the loader fails with the
error `e`, `WithUser` returns (no panic) exactly `e`, having invoked the loader once and
the closure never, and the cache afterwards is the cache before. -/
theorem withUser_load_error (g : GlobalContext) (p : Package) (m : FullSelfCache)
    (arg : LoadUserArg) (f : Option User → Option Error) (e : Error)
    (hmiss : m.me = none ∨ m.isSelfLoad p arg = some false)
    (hload : (p.LoadUser arg).2 = some e) :
    ∃ r, m.WithUser g p arg f = some r ∧ r.err = some e ∧ calls r.trace = [] ∧
      loads r.trace = [arg] ∧ r.m = m := by
  unfold FullSelfCache.WithUser
  simp [withUser_miss_cond p m arg hmiss, hload, calls, loads]

/-- Witness of C4: an empty cache and a loader that fails. -/
theorem withUser_load_error_witness :
    ∃ r, FullSelfCache.WithUser asAlice loadFails NewFullSelfCache { Name := "bob" } accept
        = some r ∧ r.err = some (.Other "network") ∧ calls r.trace = [] ∧
      loads r.trace = [{ Name := "bob" }] ∧ r.m = NewFullSelfCache :=
  withUser_load_error asAlice loadFails NewFullSelfCache { Name := "bob" } accept
    (.Other "network") (Or.inl rfl) rfl

/-- Claim C5: for every cache state and identifier, `HandleUserChanged` returns (no
panic) no error and never invokes the loader; it takes the slot from holding a record
to empty exactly when the slot held a record with that identifier, and in every other
case the cache afterwards is the cache before. -/
theorem handleUserChanged_spec (m : FullSelfCache) (id : UID) :
    ∃ r, m.HandleUserChanged id = some r ∧ r.err = none ∧ loads r.trace = [] ∧
      ((m.me ≠ none ∧ r.m.me = none) ↔ ∃ u, m.me = some u ∧ u.id = id) ∧
      ((¬ ∃ u, m.me = some u ∧ u.id = id) → r.m = m) := by
  obtain ⟨me⟩ := m
  cases me with
  | none => simp [FullSelfCache.HandleUserChanged, andAlso, loads]
  | some U =>
    by_cases h : U.id = id <;>
      simp [FullSelfCache.HandleUserChanged, andAlso, GetUID, UID.Equal, h, loads]

/-- Claim C6: for every cache state and authenticated identifier, `OnLogin` returns (no
panic) no error and never invokes the loader; it takes the slot from holding a record
to empty exactly when the slot held a record whose identifier is not the authenticated
one, and in every other case (same identifier, or empty slot) the cache afterwards is
the cache before. -/
theorem onLogin_spec (g : GlobalContext) (m : FullSelfCache) :
    ∃ r, m.OnLogin g = some r ∧ r.err = none ∧ loads r.trace = [] ∧
      ((m.me ≠ none ∧ r.m.me = none) ↔ ∃ u, m.me = some u ∧ u.id ≠ g.GetMyUID) ∧
      ((¬ ∃ u, m.me = some u ∧ u.id ≠ g.GetMyUID) → r.m = m) := by
  obtain ⟨me⟩ := m
  cases me with
  | none => simp [FullSelfCache.OnLogin, andAlso, loads]
  | some U =>
    by_cases h : U.id = g.GetMyUID <;>
      simp [FullSelfCache.OnLogin, andAlso, GetUID, UID.Equal, h, loads]

/-- Claim C7: for every cache state, `OnLogout` returns (no panic) no error and leaves
the slot empty, and a second `OnLogout` right after it returns the very same result:
no error and the same, empty, cache. -/
theorem onLogout_idempotent (m : FullSelfCache) :
    ∃ r, m.OnLogout = some r ∧ r.err = none ∧ r.m.me = none ∧ loads r.trace = [] ∧
      r.m.OnLogout = some r := by
  simp [FullSelfCache.OnLogout, loads]

/-- The applicability check of `WithUser` never panics: it sends the call to the loader
exactly when the slot is empty or the criteria are not a self lookup against the cached
record. On an empty slot the cached record is not looked at. -/
theorem withUser_check (p : Package) (m : FullSelfCache) (arg : LoadUserArg) :
    orElse (m.me == none) ((m.isSelfLoad p arg).map not) =
      some (match m.me with
        | none => true
        | some U => !selfLookup p U arg) := by
  obtain ⟨me⟩ := m
  cases me with
  | none => simp [orElse]
  | some U => simp [orElse, isSelfLoad_some, selfLookup]

/-- Claim C13: for the pass-through variant, `WithUser` invokes the loader exactly once,
with the criteria it was given; when the loader fails it returns the error of the loader
and does not call the closure, and otherwise it calls the closure once, on what the
loader returned, and returns the result of the closure. `WithSelf` does the same with
criteria whose `Self` is true. `HandleUserChanged`, `OnLogout` and `OnLogin` return no
error, cause no event and leave the receiver as it was, and the result of a lookup is
the same on every receiver, so no earlier call has any influence on it. -/
theorem nullFullSelfCache_spec (p : Package) (n : NullFullSelfCache) (arg : LoadUserArg)
    (f : Option User → Option Error) (u : UID) :
    loads (n.WithUser p arg f).trace = [arg] ∧
      (∀ e, (p.LoadUser arg).2 = some e →
        (n.WithUser p arg f).err = some e ∧ calls (n.WithUser p arg f).trace = []) ∧
      ((p.LoadUser arg).2 = none →
        (n.WithUser p arg f).err = f (p.LoadUser arg).1 ∧
          calls (n.WithUser p arg f).trace = [(p.LoadUser arg).1]) ∧
      (∃ a, n.WithSelf p f = n.WithUser p a f ∧ a.Self = true ∧
        loads (n.WithSelf p f).trace = [a]) ∧
      (n.HandleUserChanged u).err = none ∧ (n.HandleUserChanged u).trace = [] ∧
      (n.HandleUserChanged u).n = n ∧
      n.OnLogout.err = none ∧ n.OnLogout.trace = [] ∧ n.OnLogout.n = n ∧
      n.OnLogin.err = none ∧ n.OnLogin.trace = [] ∧ n.OnLogin.n = n ∧
      (n.WithUser p arg f).n = n ∧
      ∀ k : NullFullSelfCache, k.WithUser p arg f = n.WithUser p arg f := by
  refine ⟨?_, ?_, ?_, ⟨{ PublicKeyOptional := true, Self := true }, rfl, rfl, ?_⟩, rfl, rfl,
    rfl, rfl, rfl, rfl, rfl, rfl, rfl, ?_, fun k => rfl⟩
  · cases h : (p.LoadUser arg).2 <;> simp [NullFullSelfCache.WithUser, h, loads]
  · intro e h
    simp [NullFullSelfCache.WithUser, h, calls]
  · intro h
    simp [NullFullSelfCache.WithUser, h, calls]
  · cases h : (p.LoadUser { PublicKeyOptional := true, Self := true }).2 <;>
      simp [NullFullSelfCache.WithSelf, NullFullSelfCache.WithUser, h, loads]
  · cases h : (p.LoadUser arg).2 <;> simp [NullFullSelfCache.WithUser, h]

/-- Claim C14: for every cache state, criteria and closure, when `WithUser` resolves a
record, either from the slot (the slot holds it and the criteria are a self lookup) or
from the loader (the call goes to the loader, which succeeds with it), `WithUser`
returns (no panic) having called the closure exactly once, with that record, and its
result is exactly the result of the closure, error or not. -/
theorem withUser_calls_closure (g : GlobalContext) (p : Package) (m : FullSelfCache)
    (arg : LoadUserArg) (f : Option User → Option Error) (rec : User)
    (hres : (m.me = some rec ∧ m.isSelfLoad p arg = some true) ∨
      ((m.me = none ∨ m.isSelfLoad p arg = some false) ∧
        p.LoadUser arg = (some rec, none))) :
    ∃ r, m.WithUser g p arg f = some r ∧ calls r.trace = [some rec] ∧
      r.err = f (some rec) := by
  rcases hres with ⟨hme, hs⟩ | ⟨hmiss, hload⟩
  · unfold FullSelfCache.WithUser
    cases hg : g.GetUPAKLoader <;> simp [hme, hs, orElse, calls]
  · unfold FullSelfCache.WithUser
    simp only [withUser_miss_cond p m arg hmiss, hload]
    cases hS : arg.Self <;> cases hq : (rec.id.Equal g.GetMyUID) <;>
      simp [orElse, GetUID, hq, calls]

/-- Witness of C14: the cache holds `alice` and the lookup is by the name `alice`. -/
theorem withUser_calls_closure_witness :
    ∃ r, FullSelfCache.WithUser asAlice loadsBob ⟨some alice⟩ { Name := "alice" } accept
        = some r ∧ calls r.trace = [some alice] ∧ r.err = accept (some alice) :=
  withUser_calls_closure asAlice loadsBob ⟨some alice⟩ { Name := "alice" } accept alice
    (Or.inl ⟨rfl, by decide⟩)

/-- The lock discipline of one `WithUser` call, seen from the calling thread: the lock is
taken once, before anything else but the first debug line, and given back once, as the
last event, on every return; the loader and the closure run in between. -/
theorem withUser_lock_bracket (g : GlobalContext) (p : Package) (m : FullSelfCache)
    (arg : LoadUserArg) (f : Option User → Option Error) (r : Ret)
    (h : m.WithUser g p arg f = some r) :
    ∃ mid, r.trace = [.Debug .enter, .Lock] ++ mid ++ [.Debug .leave, .Unlock] ∧
      Event.Lock ∉ mid ∧ Event.Unlock ∉ mid := by
  unfold FullSelfCache.WithUser at h
  simp only [withUser_check, Option.some_bind] at h
  split at h
  · split at h
    · cases h
      exact ⟨[.LoadUser arg], by simp, by simp, by simp⟩
    · cases hq : orElse arg.Self ((GetUID (p.LoadUser arg).1).map
          fun uid => uid.Equal g.GetMyUID) with
      | none => simp [hq] at h
      | some b =>
        simp only [hq, Option.some_bind] at h
        cases b
        · simp only [Bool.false_eq_true, if_false, Option.some.injEq] at h
          subst h
          exact ⟨[.LoadUser arg] ++ (if arg.Self then [] else [.GetMyUID]) ++
            [.Debug .otherUser, .Call (p.LoadUser arg).1], by simp,
            by cases arg.Self <;> simp, by cases arg.Self <;> simp⟩
        · simp only [if_true, Option.some.injEq] at h
          subst h
          exact ⟨[.LoadUser arg] ++ (if arg.Self then [] else [.GetMyUID]) ++
            [.Debug .cachePopulate, .Call (p.LoadUser arg).1], by simp,
            by cases arg.Self <;> simp, by cases arg.Self <;> simp⟩
  · simp only [Option.some.injEq] at h
    subst h
    exact ⟨[.Debug .cacheHit, .GetUPAKLoader] ++
      (if g.GetUPAKLoader then [.PutUserToCache m.me] else []) ++ [.Call m.me], by simp,
      by cases g.GetUPAKLoader <;> simp, by cases g.GetUPAKLoader <;> simp⟩

/-- Claim C16: for every cache state and criteria, with a loader that answers with a
record or with an error, `WithUser` returns (no panic) and has invoked the loader at
most once, with the criteria it was given; it has invoked it exactly when the slot is
empty or the criteria are not a self lookup against the cached record, a self lookup
being what `selfLookup` says, which is what `isSelfLoad` computes on a slot that holds a
record. In particular a call on an empty slot always goes to the loader, whatever the
criteria, without looking at the cached record. -/
theorem withUser_loads_iff (g : GlobalContext) (p : Package) (m : FullSelfCache)
    (arg : LoadUserArg) (f : Option User → Option Error)
    (hwf : (p.LoadUser arg).1 ≠ none ∨ (p.LoadUser arg).2 ≠ none) :
    ∃ r, m.WithUser g p arg f = some r ∧
      (loads r.trace = [arg] ∨ loads r.trace = []) ∧
      (loads r.trace = [arg] ↔
        (m.me = none ∨ ∃ U, m.me = some U ∧ selfLookup p U arg = false)) ∧
      (m.me = none → loads r.trace = [arg]) ∧
      (∀ U, m.me = some U → m.isSelfLoad p arg = some (selfLookup p U arg)) := by
  have hsome : ∀ U, m.me = some U → m.isSelfLoad p arg = some (selfLookup p U arg) := by
    intro U hU
    obtain ⟨me⟩ := m
    simp only at hU
    subst hU
    simpa [selfLookup] using isSelfLoad_some p U arg
  have hload : (match m.me with
        | none => true
        | some U => !selfLookup p U arg) = true →
      ∃ r, m.WithUser g p arg f = some r ∧ loads r.trace = [arg] := by
    intro hc
    unfold FullSelfCache.WithUser
    simp only [withUser_check, hc, Option.some_bind, if_true]
    cases h2 : (p.LoadUser arg).2 with
    | some e => simp [loads]
    | none =>
      cases h1 : (p.LoadUser arg).1 with
      | none => simp [h1, h2] at hwf
      | some R =>
        cases hS : arg.Self <;> cases hq : (R.id.Equal g.GetMyUID) <;>
          simp [orElse, GetUID, hq, loads]
  have hhit : (match m.me with
        | none => true
        | some U => !selfLookup p U arg) = false →
      ∃ r, m.WithUser g p arg f = some r ∧ loads r.trace = [] := by
    intro hc
    unfold FullSelfCache.WithUser
    simp only [withUser_check, hc, Option.some_bind]
    cases hg : g.GetUPAKLoader <;> simp [loads]
  cases hm : m.me with
  | none =>
    obtain ⟨r, hr, hl⟩ := hload (by simp [hm])
    exact ⟨r, hr, Or.inl hl, by simp [hl], fun _ => hl, by simp⟩
  | some U =>
    cases hs : selfLookup p U arg with
    | false =>
      obtain ⟨r, hr, hl⟩ := hload (by simp [hm, hs])
      exact ⟨r, hr, Or.inl hl, by simp [hl, hs], by simp, by
        intro V hV; cases hV; simpa [hs] using hsome U hm⟩
    | true =>
      obtain ⟨r, hr, hl⟩ := hhit (by simp [hm, hs])
      exact ⟨r, hr, Or.inr hl, by simp [hl, hs], by simp, by
        intro V hV; cases hV; simpa [hs] using hsome U hm⟩

/-- Witness of C16: an empty cache and a lookup by name, the loader answering `bob`. -/
theorem withUser_loads_iff_witness :
    ∃ r, FullSelfCache.WithUser asAlice loadsBob NewFullSelfCache { Name := "bob" } accept
        = some r ∧
      (loads r.trace = [{ Name := "bob" }] ∨ loads r.trace = []) ∧
      (loads r.trace = [{ Name := "bob" }] ↔
        (NewFullSelfCache.me = none ∨
          ∃ U, NewFullSelfCache.me = some U ∧ selfLookup loadsBob U { Name := "bob" } = false)) ∧
      (NewFullSelfCache.me = none → loads r.trace = [{ Name := "bob" }]) ∧
      (∀ U, NewFullSelfCache.me = some U →
        NewFullSelfCache.isSelfLoad loadsBob { Name := "bob" }
          = some (selfLookup loadsBob U { Name := "bob" })) :=
  withUser_loads_iff asAlice loadsBob NewFullSelfCache { Name := "bob" } accept
    (Or.inl (by decide))

/-- Claim C17: for every cache state and criteria with `Self` false that send `WithUser`
to the loader (empty slot, or criteria that are not a self lookup against the cached
record), when the loader succeeds with a record `R` whose identifier is the
authenticated one, `WithUser` returns (no panic) and the slot then holds `R`, whatever
it held before. -/
theorem withUser_self_load_replaces (g : GlobalContext) (p : Package) (m : FullSelfCache)
    (arg : LoadUserArg) (f : Option User → Option Error) (R : User)
    (hself : arg.Self = false) (hmiss : m.me = none ∨ m.isSelfLoad p arg = some false)
    (hload : p.LoadUser arg = (some R, none)) (hid : R.id = g.GetMyUID) :
    ∃ r, m.WithUser g p arg f = some r ∧ r.m.me = some R ∧ loads r.trace = [arg] ∧
      calls r.trace = [some R] := by
  unfold FullSelfCache.WithUser
  simp only [withUser_miss_cond p m arg hmiss, hload, Option.some_bind, if_true]
  simp [hself, orElse, GetUID, UID.Equal, hid, loads, calls]

/-- Witness of C17: `bob` is cached, `alice` is authenticated and looked up by name. -/
theorem withUser_self_load_replaces_witness :
    ∃ r, FullSelfCache.WithUser asAlice loadsAlice ⟨some bob⟩ { Name := "alice" } accept
        = some r ∧ r.m.me = some alice ∧ loads r.trace = [{ Name := "alice" }] ∧
      calls r.trace = [some alice] :=
  withUser_self_load_replaces asAlice loadsAlice ⟨some bob⟩ { Name := "alice" } accept alice
    rfl (Or.inr (by decide)) rfl (by decide)

/-- What one `WithUser` call does to the slot, next to its loader calls: either it made
none and left the cache as it was, or it made one that was not a confirmed-self success
and left the cache as it was, or it made one that was a confirmed-self success and the
slot holds what that call returned. -/
theorem withUser_store (s : Step) (m : FullSelfCache) (arg : LoadUserArg)
    (f : Option User → Option Error) (r : Ret) (h : m.WithUser s.g s.p arg f = some r) :
    (loads r.trace = [] ∧ r.m = m) ∨
      (loads r.trace = [arg] ∧ s.confirmedSelf arg = false ∧ r.m = m) ∨
      (loads r.trace = [arg] ∧ s.confirmedSelf arg = true ∧ r.m.me = (s.p.LoadUser arg).1) := by
  unfold FullSelfCache.WithUser at h
  simp only [withUser_check, Option.some_bind] at h
  split at h
  · cases h2 : (s.p.LoadUser arg).2 with
    | some e =>
      simp only [h2, bne_iff_ne, ne_eq, reduceCtorEq, not_false_eq_true, if_true,
        Option.some.injEq] at h
      subst h
      exact Or.inr (Or.inl ⟨by simp [loads], by simp [Step.confirmedSelf, h2], rfl⟩)
    | none =>
      simp only [h2, bne_self_eq_false, Bool.false_eq_true, if_false] at h
      cases hS : arg.Self with
      | true =>
        simp only [hS, orElse, if_true, Option.some_bind, Option.some.injEq] at h
        subst h
        exact Or.inr (Or.inr ⟨by simp [loads], by simp [Step.confirmedSelf, h2, hS], rfl⟩)
      | false =>
        cases h1 : (s.p.LoadUser arg).1 with
        | none => simp [hS, orElse, h1, GetUID] at h
        | some R =>
          simp only [hS, orElse, h1, GetUID, Option.map_some', Bool.false_eq_true, if_false,
            Option.some_bind] at h
          by_cases hq : R.id = s.g.GetMyUID
          · simp only [UID.Equal, hq, beq_self_eq_true, if_true, Option.some.injEq] at h
            subst h
            exact Or.inr (Or.inr ⟨by simp [loads],
              by simp [Step.confirmedSelf, h2, h1, GetUID, hq], rfl⟩)
          · have hb : (R.id == s.g.GetMyUID) = false := by simpa using hq
            simp only [UID.Equal, hb, Bool.false_eq_true, if_false, Option.some.injEq] at h
            subst h
            exact Or.inr (Or.inl ⟨by simp [loads],
              by simp [Step.confirmedSelf, h2, h1, GetUID, hS, hq], rfl⟩)
  · simp only [Option.some.injEq] at h
    subst h
    exact Or.inl ⟨by cases s.g.GetUPAKLoader <;> simp [loads], rfl⟩

/-- One call keeps the invariant of the slot: if the slot, when it holds a record, holds
what the most recent confirmed-self successful loader call returned, then so it does
after the call, the most recent such call now being looked for in this call first. -/
theorem step_keeps_slot (s : Step) (st : RunState) (r : Ret)
    (hinv : ∀ U, st.m.me = some U → st.last = some (some U))
    (hr : s.apply st.m = some r) (U : User) (hU : r.m.me = some U) :
    (match s.confirmed r.trace with
      | some u => some u
      | none => st.last) = some (some U) := by
  have key : ∀ arg f, st.m.WithUser s.g s.p arg f = some r →
      (match s.confirmed r.trace with
        | some u => some u
        | none => st.last) = some (some U) := by
    intro arg f h
    rcases withUser_store s st.m arg f r h with ⟨hl, hm⟩ | ⟨hl, hc, hm⟩ | ⟨hl, hc, hm⟩
    · rw [hm] at hU
      simp [Step.confirmed, hl, hinv U hU]
    · rw [hm] at hU
      simp [Step.confirmed, hl, hc, hinv U hU]
    · rw [hm] at hU
      simp [Step.confirmed, hl, hc, hU]
  unfold Step.apply at hr
  split at hr
  · exact key _ _ hr
  · exact key _ _ hr
  · rename_i u _
    unfold FullSelfCache.HandleUserChanged at hr
    cases hb : andAlso (st.m.me != none) ((GetUID st.m.me).map fun i => i.Equal u) with
    | none => simp [hb] at hr
    | some b =>
      simp only [hb, Option.some_bind] at hr
      cases b
      · simp only [Bool.false_eq_true, if_false, Option.some.injEq] at hr
        subst hr
        simp [Step.confirmed, loads, hinv U hU]
      · simp only [if_true, Option.some.injEq] at hr
        subst hr
        simp at hU
  · simp only [FullSelfCache.OnLogout, Option.some.injEq] at hr
    subst hr
    simp at hU
  · unfold FullSelfCache.OnLogin at hr
    cases hb : andAlso (st.m.me != none)
        ((GetUID st.m.me).map fun i => !i.Equal s.g.GetMyUID) with
    | none => simp [hb] at hr
    | some b =>
      simp only [hb, Option.some_bind] at hr
      cases b
      · simp only [Bool.false_eq_true, if_false, Option.some.injEq] at hr
        subst hr
        have hl : loads ([Event.Lock] ++ (if (st.m.me != none) = true then [Event.GetMyUID]
            else []) ++ [Event.Unlock]) = [] := by
          cases (st.m.me != none) <;> simp [loads]
        simp only [Step.confirmed, hl]
        simp [hinv U hU]
      · simp only [if_true, Option.some.injEq] at hr
        subst hr
        simp at hU

/-- A run keeps the invariant of the slot, from whatever state that has it. -/
theorem runSteps_keeps_slot (steps : List Step) (st0 st : RunState)
    (hinv : ∀ U, st0.m.me = some U → st0.last = some (some U))
    (h : runSteps steps st0 = some st) (U : User) (hU : st.m.me = some U) :
    st.last = some (some U) := by
  induction steps generalizing st0 with
  | nil =>
    simp only [runSteps, Option.some.injEq] at h
    subst h
    exact hinv U hU
  | cons s rest ih =>
    unfold runSteps at h
    cases hr : s.apply st0.m with
    | none => simp [hr] at h
    | some r =>
      simp only [hr] at h
      exact ih _ (fun V hV => step_keeps_slot s st0 r hinv hr V hV) h

/-- Claim C18: after every finite sequence of `WithUser`, `WithSelf`,
`HandleUserChanged`, `OnLogout` and `OnLogin` calls made on a new, empty cache, each in
the outside world of its own time, when the slot holds a record, that record is what
the most recent successful loader call confirmed to be self returned, confirmed meaning
made with `Self` true or returning a record whose identifier was the authenticated one
at the time of the call. As this holds after every sequence, it holds after every call
of a sequence, so no call ever stores another record. -/
theorem slot_is_last_confirmed_self (steps : List Step) (st : RunState)
    (h : runSteps steps { m := NewFullSelfCache, last := none } = some st) (U : User)
    (hU : st.m.me = some U) : st.last = some (some U) :=
  runSteps_keeps_slot steps { m := NewFullSelfCache, last := none } st
    (fun V hV => by simp [NewFullSelfCache] at hV) h U hU

/-- Witness of C18: after `WithSelf` has loaded `alice` and a lookup by name has loaded
`bob`, the slot holds `alice`, whom the most recent confirmed-self load returned. -/
theorem slot_is_last_confirmed_self_witness :
    runSteps sampleSteps { m := NewFullSelfCache, last := none }
        = some { m := ⟨some alice⟩, last := some (some alice) } ∧
      (⟨⟨some alice⟩, some (some alice)⟩ : RunState).last = some (some alice) :=
  ⟨by decide, slot_is_last_confirmed_self sampleSteps ⟨⟨some alice⟩, some (some alice)⟩
    (by decide) alice rfl⟩

/-- Claim C19: for every cache state and criteria that send `WithUser` to the loader,
when the loader succeeds with a record `R` that is stored (`Self` is true, or the
identifier of `R` is the authenticated one) and the closure fails on `R` with the error
`e`, `WithUser` returns (no panic) the error `e` and the slot holds `R` all the same:
the populate step comes before the call of the closure and nothing undoes it. -/
theorem withUser_populate_survives_failure (g : GlobalContext) (p : Package)
    (m : FullSelfCache) (arg : LoadUserArg) (f : Option User → Option Error) (R : User)
    (e : Error) (hmiss : m.me = none ∨ m.isSelfLoad p arg = some false)
    (hload : p.LoadUser arg = (some R, none))
    (hconf : arg.Self = true ∨ R.id = g.GetMyUID) (hf : f (some R) = some e) :
    ∃ r, m.WithUser g p arg f = some r ∧ r.m.me = some R ∧ r.err = some e ∧
      ∃ s t, r.trace = s ++ [.Debug .cachePopulate, .Call (some R)] ++ t := by
  have hq : orElse arg.Self ((GetUID (some R)).map fun uid => uid.Equal g.GetMyUID)
      = some true := by
    rcases hconf with h | h
    · simp [orElse, h]
    · cases arg.Self <;> simp [orElse, GetUID, UID.Equal, h]
  unfold FullSelfCache.WithUser
  simp only [withUser_miss_cond p m arg hmiss, hload, hq, Option.some_bind, if_true]
  refine ⟨_, by simp; rfl, rfl, hf, ?_⟩
  exact ⟨[.Debug .enter, .Lock] ++ [.LoadUser arg] ++ (if arg.Self then [] else [.GetMyUID]),
    [.Debug .leave, .Unlock], by simp⟩

/-- Witness of C19: an empty cache, `WithSelf` criteria, a closure that fails. -/
theorem withUser_populate_survives_failure_witness :
    ∃ r, FullSelfCache.WithUser asAlice loadsAlice NewFullSelfCache
        { PublicKeyOptional := true, Self := true } reject = some r ∧
      r.m.me = some alice ∧ r.err = some (.Other "closure") ∧
      ∃ s t, r.trace = s ++ [.Debug .cachePopulate, .Call (some alice)] ++ t :=
  withUser_populate_survives_failure asAlice loadsAlice NewFullSelfCache
    { PublicKeyOptional := true, Self := true } reject alice (.Other "closure")
    (Or.inl rfl) rfl (Or.inl rfl) rfl

end Libkb

namespace Engine

open Libkb

/-- What `Run` does once the strategy has succeeded and the load has not aborted the
run, on an engine that does not skip the checkup: it creates the checkup for the record
the load returned, stores the handle, runs the checkup against that record and returns
its result, and marks the session provisioned exactly when the checkup succeeded. -/
theorem run_checkup_phase (w : World) (e : LoginEngine) (ctx : Option Context)
    (hskip : e.SkipLocksmith = false) (hrun : e.runFn w.LoginState ctx = .returned none)
    (hload : loadAborts (w.LoadMe { ForceReload := true }).2 = false) :
    let u := (w.LoadMe { ForceReload := true }).1
    let l := NewLocksmith { User := u }
    let r := e.Run w ctx
    r.res = .returned (w.LoginCheckup l ctx u) ∧ r.e.User = u ∧ r.e.locksmith = some l ∧
      created r.trace = [{ User := u }] ∧ checkups r.trace = [(l, u)] ∧
      provisioned r.trace = (if w.LoginCheckup l ctx u = none then [w.GetDeviceID] else []) := by
  intro u l r
  cases hc : w.LoginCheckup l ctx u <;>
    simp [r, l, u, LoginEngine.Run, hrun, hload, hskip, hc, LoginEngine.User, created,
      checkups, provisioned]

/-- Claim C8: on an engine that does not skip the checkup, when the strategy succeeds,
the load of the own record succeeds with `R` and the checkup of `R` succeeds, `Run`
returns no error, `User` then returns `R`, exactly one checkup was created and run, and
it was run against `R`, and the session was marked provisioned exactly once, with the
local device identifier. -/
theorem run_happy_path (w : World) (e : LoginEngine) (ctx : Option Context) (R : User)
    (hskip : e.SkipLocksmith = false) (hrun : e.runFn w.LoginState ctx = .returned none)
    (hload : w.LoadMe { ForceReload := true } = (some R, none))
    (hcheck : w.LoginCheckup (NewLocksmith { User := some R }) ctx (some R) = none) :
    (e.Run w ctx).res = .returned none ∧ (e.Run w ctx).e.User = some R ∧
      created (e.Run w ctx).trace = [{ User := some R }] ∧
      checkups (e.Run w ctx).trace = [(NewLocksmith { User := some R }, some R)] ∧
      provisioned (e.Run w ctx).trace = [w.GetDeviceID] := by
  have h := run_checkup_phase w e ctx hskip hrun (by simp [hload, loadAborts])
  simp only [hload, hcheck] at h
  obtain ⟨h1, h2, -, h4, h5, h6⟩ := h
  exact ⟨h1, h2, h4, h5, by simpa using h6⟩

/-- Witness of C8: the stored-secret engine in a world where every step succeeds. -/
theorem run_happy_path_witness :
    ((NewLoginWithStoredSecretEngine "alice").Run happyWorld someContext).res
        = .returned none ∧
      ((NewLoginWithStoredSecretEngine "alice").Run happyWorld someContext).e.User
        = some alice ∧
      created ((NewLoginWithStoredSecretEngine "alice").Run happyWorld someContext).trace
        = [{ User := some alice }] ∧
      checkups ((NewLoginWithStoredSecretEngine "alice").Run happyWorld someContext).trace
        = [(NewLocksmith { User := some alice }, some alice)] ∧
      provisioned ((NewLoginWithStoredSecretEngine "alice").Run happyWorld someContext).trace
        = [happyWorld.GetDeviceID] :=
  run_happy_path happyWorld (NewLoginWithStoredSecretEngine "alice") someContext alice
    rfl rfl rfl rfl

/-- Claim C9, as the code has it: on an engine that does not skip the checkup, when the
strategy succeeds and the load of the own record fails with a `NoKeyError`, `Run` does
not stop at the load: it keeps what the load returned beside the error, `rec`, a record
or none, creates one checkup for `rec`, runs it against `rec`, and returns the result of
that checkup, so no error when the checkup succeeds. The error of the load is dropped:
`Run` returns a `NoKeyError` only if the checkup itself does. -/
theorem run_no_key_continues (w : World) (e : LoginEngine) (ctx : Option Context)
    (rec : Option User) (msg : String)
    (hskip : e.SkipLocksmith = false) (hrun : e.runFn w.LoginState ctx = .returned none)
    (hload : w.LoadMe { ForceReload := true } = (rec, some (.NoKeyError msg))) :
    created (e.Run w ctx).trace = [{ User := rec }] ∧
      checkups (e.Run w ctx).trace = [(NewLocksmith { User := rec }, rec)] ∧
      (e.Run w ctx).res = .returned (w.LoginCheckup (NewLocksmith { User := rec }) ctx rec) ∧
      (w.LoginCheckup (NewLocksmith { User := rec }) ctx rec = none →
        (e.Run w ctx).res = .returned none) ∧
      ((∀ k, w.LoginCheckup (NewLocksmith { User := rec }) ctx rec
          ≠ some (.NoKeyError k)) →
        ∀ k, (e.Run w ctx).res ≠ .returned (some (.NoKeyError k))) ∧
      (e.Run w ctx).e.User = rec := by
  have h := run_checkup_phase w e ctx hskip hrun (by simp [hload, loadAborts, isNoKeyError])
  simp only [hload] at h
  obtain ⟨h1, h2, -, h4, h5, -⟩ := h
  refine ⟨h4, h5, h1, fun hc => by rw [h1, hc], fun hk k hres => ?_, h2⟩
  rw [h1] at hres
  exact hk k (Outcome.returned.inj hres)

/-- Witness of C9: the stored-secret engine in a world where the load finds no key and
returns the record of `alice` beside the error. -/
theorem run_no_key_continues_witness :
    created ((NewLoginWithStoredSecretEngine "alice").Run keylessRecordWorld
        someContext).trace = [{ User := some alice }] ∧
      checkups ((NewLoginWithStoredSecretEngine "alice").Run keylessRecordWorld
        someContext).trace = [(NewLocksmith { User := some alice }, some alice)] ∧
      ((NewLoginWithStoredSecretEngine "alice").Run keylessRecordWorld someContext).res
        = .returned (keylessRecordWorld.LoginCheckup (NewLocksmith { User := some alice })
            someContext (some alice)) ∧
      (keylessRecordWorld.LoginCheckup (NewLocksmith { User := some alice }) someContext
          (some alice) = none →
        ((NewLoginWithStoredSecretEngine "alice").Run keylessRecordWorld someContext).res
          = .returned none) ∧
      ((∀ k, keylessRecordWorld.LoginCheckup (NewLocksmith { User := some alice })
          someContext (some alice) ≠ some (.NoKeyError k)) →
        ∀ k, ((NewLoginWithStoredSecretEngine "alice").Run keylessRecordWorld
          someContext).res ≠ .returned (some (.NoKeyError k))) ∧
      ((NewLoginWithStoredSecretEngine "alice").Run keylessRecordWorld someContext).e.User
        = some alice :=
  run_no_key_continues keylessRecordWorld (NewLoginWithStoredSecretEngine "alice")
    someContext (some alice) "no key" rfl rfl rfl

/-- Counterexample to C9 as first stated: the strategy succeeds and the load fails with
a `NoKeyError` while returning the record of `alice`; the checkup is then created for
`alice` and run against `alice`, not against no record, and `User` returns `alice`. -/
theorem run_no_key_keeps_record :
    (NewLoginWithStoredSecretEngine "alice").SkipLocksmith = false ∧
      (NewLoginWithStoredSecretEngine "alice").runFn keylessRecordWorld.LoginState
        someContext = .returned none ∧
      (keylessRecordWorld.LoadMe { ForceReload := true }).2 = some (.NoKeyError "no key") ∧
      created ((NewLoginWithStoredSecretEngine "alice").Run keylessRecordWorld
        someContext).trace = [{ User := some alice }] ∧
      checkups ((NewLoginWithStoredSecretEngine "alice").Run keylessRecordWorld
        someContext).trace = [(NewLocksmith { User := some alice }, some alice)] ∧
      checkups ((NewLoginWithStoredSecretEngine "alice").Run keylessRecordWorld
        someContext).trace ≠ [(NewLocksmith { User := none }, none)] ∧
      ((NewLoginWithStoredSecretEngine "alice").Run keylessRecordWorld someContext).e.User
        ≠ none := by
  decide

/-- Claim C11: for every engine state, when no checkup handle is stored `Cancel`
returns no error and invokes the cancel of no handle; when a handle is stored `Cancel`
invokes the cancel of that handle exactly once and returns its result. `Cancel` leaves
the engine as it was, so this holds for each call of a series. No handle is stored in
an engine that any of the constructors has made, and `Run` stores none when the
strategy does not return success, when the load aborts the run, or when the checkup is
skipped; in every other case `Run` stores the handle of the checkup it runs. -/
theorem cancel_spec (w : World) (e : LoginEngine) (ctx : Option Context) :
    (e.locksmith = none →
        (e.Cancel w).res = .returned none ∧ cancels (e.Cancel w).trace = []) ∧
      (∀ l, e.locksmith = some l →
        (e.Cancel w).res = .returned (w.Cancel l) ∧ cancels (e.Cancel w).trace = [l]) ∧
      (e.Cancel w).e = e ∧
      (∀ username passphrase storeSecret,
        (NewLoginWithPromptEngine username).locksmith = none ∧
        (NewLoginWithPromptEngineSkipLocksmith username).locksmith = none ∧
        (NewLoginWithStoredSecretEngine username).locksmith = none ∧
        (NewLoginWithPassphraseEngine username passphrase storeSecret).locksmith = none) ∧
      (e.runFn w.LoginState ctx ≠ .returned none ∨
          loadAborts (w.LoadMe { ForceReload := true }).2 = true ∨
          e.SkipLocksmith = true →
        (e.Run w ctx).e.locksmith = e.locksmith) ∧
      (e.runFn w.LoginState ctx = .returned none ∧
          loadAborts (w.LoadMe { ForceReload := true }).2 = false ∧
          e.SkipLocksmith = false →
        (e.Run w ctx).e.locksmith
          = some (NewLocksmith { User := (w.LoadMe { ForceReload := true }).1 })) := by
  refine ⟨?_, ?_, ?_, fun _ _ _ => ⟨rfl, rfl, rfl, rfl⟩, ?_, ?_⟩
  · intro h
    simp [LoginEngine.Cancel, h, cancels]
  · intro l h
    simp [LoginEngine.Cancel, h, cancels]
  · cases h : e.locksmith <;> simp [LoginEngine.Cancel, h]
  · intro h
    cases hr : e.runFn w.LoginState ctx with
    | panicked => simp [LoginEngine.Run, hr]
    | returned err =>
      cases err with
      | some err => simp [LoginEngine.Run, hr]
      | none =>
        cases ha : loadAborts (w.LoadMe { ForceReload := true }).2 with
        | true => simp [LoginEngine.Run, hr, ha]
        | false =>
          cases hs : e.SkipLocksmith with
          | true =>
            cases hl : ctx.bind Context.LogUI <;> simp [LoginEngine.Run, hr, ha, hs, hl]
          | false => simp [hr, ha, hs] at h
  · rintro ⟨hr, ha, hs⟩
    exact (run_checkup_phase w e ctx hs hr ha).2.2.1

/-- Witness of C11: before `Run` the stored-secret engine has no handle and `Cancel`
does nothing; after a `Run` that reached the checkup, `Cancel` cancels that checkup. -/
theorem cancel_spec_witness :
    ((NewLoginWithStoredSecretEngine "alice").Cancel happyWorld).res = .returned none ∧
      cancels ((NewLoginWithStoredSecretEngine "alice").Cancel happyWorld).trace = [] ∧
      cancels (((NewLoginWithStoredSecretEngine "alice").Run happyWorld
        someContext).e.Cancel happyWorld).trace = [NewLocksmith { User := some alice }] :=
  ⟨((cancel_spec happyWorld (NewLoginWithStoredSecretEngine "alice") someContext).1 rfl).1,
   ((cancel_spec happyWorld (NewLoginWithStoredSecretEngine "alice") someContext).1 rfl).2,
   ((cancel_spec happyWorld ((NewLoginWithStoredSecretEngine "alice").Run happyWorld
      someContext).e someContext).2.1 (NewLocksmith { User := some alice }) rfl).2⟩

/-- Claim C12: `Run` returns the error of the first step that fails, as it is, and runs
no later step. When the strategy fails with `err`, `Run` returns `err` and there is no
load, no checkup and no marking of the session. When the strategy succeeds and the load
fails with an `err` that is not a `NoKeyError`, `Run` returns `err` and there is no
checkup and no marking. When the checkup is run and fails with `err`, `Run` returns
`err` and there is no marking. -/
theorem run_propagates_first_failure (w : World) (e : LoginEngine) (ctx : Option Context)
    (err : Error) :
    (e.runFn w.LoginState ctx = .returned (some err) →
        (e.Run w ctx).res = .returned (some err) ∧ selfLoads (e.Run w ctx).trace = [] ∧
        created (e.Run w ctx).trace = [] ∧ checkups (e.Run w ctx).trace = [] ∧
        provisioned (e.Run w ctx).trace = []) ∧
      (e.runFn w.LoginState ctx = .returned none →
        (w.LoadMe { ForceReload := true }).2 = some err → isNoKeyError err = false →
        (e.Run w ctx).res = .returned (some err) ∧ created (e.Run w ctx).trace = [] ∧
        checkups (e.Run w ctx).trace = [] ∧ provisioned (e.Run w ctx).trace = []) ∧
      (e.runFn w.LoginState ctx = .returned none →
        loadAborts (w.LoadMe { ForceReload := true }).2 = false →
        e.SkipLocksmith = false →
        w.LoginCheckup (NewLocksmith { User := (w.LoadMe { ForceReload := true }).1 }) ctx
          (w.LoadMe { ForceReload := true }).1 = some err →
        (e.Run w ctx).res = .returned (some err) ∧ provisioned (e.Run w ctx).trace = []) := by
  refine ⟨?_, ?_, ?_⟩
  · intro hr
    simp [LoginEngine.Run, hr, selfLoads, created, checkups, provisioned]
  · intro hr hl hk
    simp [LoginEngine.Run, hr, hl, hk, loadAborts, created, checkups, provisioned]
  · intro hr ha hs hc
    have h := run_checkup_phase w e ctx hs hr ha
    simp only [hc] at h
    exact ⟨h.1, by simpa using h.2.2.2.2.2⟩

/-- Witness of C12: the stored-secret engine in three worlds, in which the strategy,
the load and the checkup fail in turn. -/
theorem run_propagates_first_failure_witness :
    (((NewLoginWithStoredSecretEngine "alice").Run lockedOutWorld someContext).res
        = .returned (some (.Other "bad passphrase")) ∧
      ((NewLoginWithStoredSecretEngine "alice").Run lockedOutWorld someContext).trace
        = [.runFn]) ∧
    (((NewLoginWithStoredSecretEngine "alice").Run offlineWorld someContext).res
        = .returned (some (.Other "network")) ∧
      checkups ((NewLoginWithStoredSecretEngine "alice").Run offlineWorld someContext).trace
        = []) ∧
    (((NewLoginWithStoredSecretEngine "alice").Run checkupFailsWorld someContext).res
        = .returned (some (.Other "checkup")) ∧
      provisioned ((NewLoginWithStoredSecretEngine "alice").Run checkupFailsWorld
        someContext).trace = []) :=
  ⟨⟨((run_propagates_first_failure lockedOutWorld (NewLoginWithStoredSecretEngine "alice")
      someContext (.Other "bad passphrase")).1 rfl).1, rfl⟩,
   ⟨((run_propagates_first_failure offlineWorld (NewLoginWithStoredSecretEngine "alice")
      someContext (.Other "network")).2.1 rfl rfl rfl).1,
    ((run_propagates_first_failure offlineWorld (NewLoginWithStoredSecretEngine "alice")
      someContext (.Other "network")).2.1 rfl rfl rfl).2.2.1⟩,
   ((run_propagates_first_failure checkupFailsWorld (NewLoginWithStoredSecretEngine "alice")
      someContext (.Other "checkup")).2.2 rfl rfl rfl rfl)⟩

/-- Claim C20: for every run of the engine, the session is marked provisioned at most
once, with the local device identifier, and it is marked exactly when a checkup was run
and succeeded. In particular a run that skips the checkup marks nothing, and a run that
does not return success, because it returns an error or panics, marks nothing. -/
theorem provisioned_iff_checkup_succeeded (w : World) (e : LoginEngine)
    (ctx : Option Context) :
    (provisioned (e.Run w ctx).trace = [w.GetDeviceID] ∨
        provisioned (e.Run w ctx).trace = []) ∧
      (provisioned (e.Run w ctx).trace = [w.GetDeviceID] ↔
        ∃ l u, checkups (e.Run w ctx).trace = [(l, u)] ∧ w.LoginCheckup l ctx u = none) ∧
      (e.SkipLocksmith = true → provisioned (e.Run w ctx).trace = []) ∧
      ((e.Run w ctx).res ≠ .returned none → provisioned (e.Run w ctx).trace = []) := by
  cases hr : e.runFn w.LoginState ctx with
  | panicked => simp [LoginEngine.Run, hr, checkups, provisioned]
  | returned err0 =>
    cases err0 with
    | some err => simp [LoginEngine.Run, hr, checkups, provisioned]
    | none =>
      cases ha : loadAborts (w.LoadMe { ForceReload := true }).2 with
      | true => simp [LoginEngine.Run, hr, ha, checkups, provisioned]
      | false =>
        cases hs : e.SkipLocksmith with
        | true =>
          cases hl : ctx.bind Context.LogUI <;>
            simp [LoginEngine.Run, hr, ha, hs, hl, checkups, provisioned]
        | false =>
          cases hc : w.LoginCheckup
              (NewLocksmith { User := (w.LoadMe { ForceReload := true }).1 }) ctx
              (w.LoadMe { ForceReload := true }).1 with
          | none =>
            simp only [LoginEngine.Run, hr, ha, hs, hc, checkups, provisioned]
            simp only [bne_self_eq_false, Bool.false_eq_true, if_false, List.append,
              provisioned, reduceCtorEq, or_false, true_iff, true_and, ne_eq,
              not_true_eq_false, false_implies, and_true]
            exact ⟨_, _, rfl, hc⟩
          | some err => simp [LoginEngine.Run, hr, ha, hs, hc, checkups, provisioned]

end Engine
